import Mathlib

/-!
Verification of the `MiniSocketClient` protocol client (src/register.py).

The development shallow-embeds the client's code:

* bytes are `List Nat` (each entry one octet);
* `msgpack.packb` / `msgpack.unpackb` are embedded as `packb` / `unpackb`
  over the value type `MVal` (nil, bool, int, str, bin, array, map — the
  value domain the client exchanges; the float and ext msgpack families
  are outside the modelled payload domain and decode as failure);
* `lz4.block.decompress(·, uncompressed_size=99999)` is embedded as
  `lz4BlockDecompress` following the LZ4 block format as enforced by
  `LZ4_decompress_safe` (token / literal-run / offset / match-run, the
  last sequence ending in literals exactly at the input end);
* fallible Python operations (`int.to_bytes` raising `OverflowError`,
  decoding raising) return `Option`;
* the connection object's mutable state (`_seq`, `_pending`,
  `is_connected`, the socket, the two background tasks) is the structure
  `ClientState`, and `send_msg`, `close` and one iteration of
  `_recv_loop` are explicit state-passing functions.
-/

namespace Komet

/-! ### Byte-level helpers

`natToBytesBE w v` is the unsigned big-endian `w`-byte encoding of
`v % 256^w`; `toBytesBE? w v` is Python's `v.to_bytes(w, "big")`, which
raises `OverflowError` (here: `none`) when `v` does not fit.
`bytesToNatBE` is Python's `int.from_bytes(bs, "big")`. -/

def natToBytesBE : Nat → Nat → List Nat
  | 0, _ => []
  | w + 1, v => natToBytesBE w (v / 256) ++ [v % 256]

def toBytesBE? (w v : Nat) : Option (List Nat) :=
  if v < 256 ^ w then some (natToBytesBE w v) else none

def bytesToNatBE (bs : List Nat) : Nat :=
  bs.foldl (fun acc b => acc * 256 + b) 0

theorem natToBytesBE_length (w v : Nat) : (natToBytesBE w v).length = w := by
  induction w generalizing v with
  | zero => rfl
  | succ k ih => simp [natToBytesBE, ih]

theorem bytesToNatBE_append_singleton (xs : List Nat) (b : Nat) :
    bytesToNatBE (xs ++ [b]) = bytesToNatBE xs * 256 + b := by
  simp [bytesToNatBE, List.foldl_append]

theorem bytesToNatBE_natToBytesBE (w v : Nat) :
    bytesToNatBE (natToBytesBE w v) = v % 256 ^ w := by
  induction w generalizing v with
  | zero => simp [natToBytesBE, bytesToNatBE, Nat.mod_one]
  | succ k ih =>
    rw [natToBytesBE, bytesToNatBE_append_singleton, ih]
    have h256 : (0 : Nat) < 256 := by norm_num
    calc v / 256 % 256 ^ k * 256 + v % 256
        = v % 256 + 256 * (v / 256 % 256 ^ k) := by ring
      _ = v % (256 * 256 ^ k) := (Nat.mod_mul).symm
      _ = v % 256 ^ (k + 1) := by rw [Nat.pow_succ, Nat.mul_comm]

theorem toBytesBE?_eq_some {w v : Nat} {bs : List Nat}
    (h : toBytesBE? w v = some bs) : bs = natToBytesBE w v ∧ v < 256 ^ w := by
  unfold toBytesBE? at h
  split at h
  · exact ⟨(Option.some.injEq _ _ ▸ h).symm, by assumption⟩
  · exact absurd h (by simp)

/-- `readN n bs` consumes exactly `n` bytes from the front of `bs`. -/
def readN (n : Nat) (bs : List Nat) : Option (List Nat × List Nat) :=
  if n ≤ bs.length then some (bs.take n, bs.drop n) else none

theorem readN_append (s rest : List Nat) :
    readN s.length (s ++ rest) = some (s, rest) := by
  unfold readN
  rw [if_pos (by simp)]
  simp [List.take_left, List.drop_left]

theorem readN_append_of_len {n : Nat} (s rest : List Nat) (h : s.length = n) :
    readN n (s ++ rest) = some (s, rest) := by
  subst h; exact readN_append s rest

/-! ### The msgpack value domain

`MVal` is the domain of structured payload values the client exchanges:
nested mappings / sequences / scalars.  A Python `str` is represented by
its UTF-8 byte sequence, `bytes` by `bin`.  (`msgpack.packb` maps Python
`None`/`bool`/`int`/`str`/`bytes`/`list`/`dict` onto exactly these wire
families with its default `use_bin_type=True` settings.) -/

inductive MVal where
  | nil : MVal
  | bool (b : Bool) : MVal
  | int (n : Int) : MVal
  | str (s : List Nat) : MVal
  | bin (b : List Nat) : MVal
  | arr (xs : List MVal) : MVal
  | map (kvs : List (MVal × MVal)) : MVal

/-- `msgpack.packb` on an integer: smallest representation, exactly the
branch order of msgpack-python's packer (fixint, uint8/16/32/64,
negative fixint, int8/16/32/64); out-of-range raises (`none`). -/
def packInt (n : Int) : Option (List Nat) :=
  if 0 ≤ n then
    if n.toNat < 0x80 then some [n.toNat]
    else if n.toNat < 0x100 then some [0xcc, n.toNat]
    else if n.toNat < 0x10000 then some (0xcd :: natToBytesBE 2 n.toNat)
    else if n.toNat < 0x100000000 then some (0xce :: natToBytesBE 4 n.toNat)
    else if n.toNat < 0x10000000000000000 then
      some (0xcf :: natToBytesBE 8 n.toNat)
    else none
  else
    if -0x20 ≤ n then some [(n + 0x100).toNat]
    else if -0x80 ≤ n then some [0xd0, (n + 0x100).toNat]
    else if -0x8000 ≤ n then some (0xd1 :: natToBytesBE 2 (n + 0x10000).toNat)
    else if -0x80000000 ≤ n then some (0xd2 :: natToBytesBE 4 (n + 0x100000000).toNat)
    else if -0x8000000000000000 ≤ n then
      some (0xd3 :: natToBytesBE 8 (n + 0x10000000000000000).toNat)
    else none

mutual

/-- `msgpack.packb(payload)`: serialize an `MVal` to wire bytes,
choosing the smallest header family, as msgpack-python does. -/
def packb : MVal → Option (List Nat)
  | .nil => some [0xc0]
  | .bool false => some [0xc2]
  | .bool true => some [0xc3]
  | .int n => packInt n
  | .str s =>
    if s.length < 0x20 then some ((0xa0 + s.length) :: s)
    else if s.length < 0x100 then some (0xd9 :: s.length :: s)
    else if s.length < 0x10000 then some (0xda :: natToBytesBE 2 s.length ++ s)
    else if s.length < 0x100000000 then
      some (0xdb :: natToBytesBE 4 s.length ++ s)
    else none
  | .bin b =>
    if b.length < 0x100 then some (0xc4 :: b.length :: b)
    else if b.length < 0x10000 then some (0xc5 :: natToBytesBE 2 b.length ++ b)
    else if b.length < 0x100000000 then
      some (0xc6 :: natToBytesBE 4 b.length ++ b)
    else none
  | .arr xs =>
    match packList xs with
    | none => none
    | some body =>
      if xs.length < 0x10 then some ((0x90 + xs.length) :: body)
      else if xs.length < 0x10000 then
        some (0xdc :: natToBytesBE 2 xs.length ++ body)
      else if xs.length < 0x100000000 then
        some (0xdd :: natToBytesBE 4 xs.length ++ body)
      else none
  | .map kvs =>
    match packMap kvs with
    | none => none
    | some body =>
      if kvs.length < 0x10 then some ((0x80 + kvs.length) :: body)
      else if kvs.length < 0x10000 then
        some (0xde :: natToBytesBE 2 kvs.length ++ body)
      else if kvs.length < 0x100000000 then
        some (0xdf :: natToBytesBE 4 kvs.length ++ body)
      else none

/-- Concatenated serializations of the elements of a sequence. -/
def packList : List MVal → Option (List Nat)
  | [] => some []
  | v :: vs =>
    match packb v, packList vs with
    | some e, some rest => some (e ++ rest)
    | _, _ => none

/-- Concatenated key/value serializations of a mapping (insertion order,
as a Python dict iterates). -/
def packMap : List (MVal × MVal) → Option (List Nat)
  | [] => some []
  | (k, v) :: kvs =>
    match packb k, packb v, packMap kvs with
    | some ek, some ev, some rest => some (ek ++ ev ++ rest)
    | _, _, _ => none

end

example : packb (.int 0) = some [0] := rfl
example : packb (.int 300) = some [0xcd, 1, 44] := rfl
example : packb (.int (-5)) = some [0xfb] := rfl
example : packb (.str [104, 105]) = some [0xa2, 104, 105] := rfl
example : packb (.map [(.str [97], .int 1)]) = some [0x81, 0xa1, 97, 1] := rfl
example : packb (.arr [.nil, .bool true]) = some [0x92, 0xc0, 0xc3] := rfl

/-! ### The msgpack decoder

`unpackb` embeds `msgpack.unpackb(data, raw=False, strict_map_key=False)`:
parse one value off the front of the buffer and require the buffer
exhausted (msgpack-python raises `ExtraData` otherwise).  Parsing is
fuel-indexed for structural recursion; `unpackb` supplies fuel
`2 * length + 2`, sufficient for every parse (each parsed value consumes
at least one input byte, see `fuelNeed_le_length` below for encoder
images). -/

/-- Read a `w`-byte big-endian length, then that many bytes. -/
def readSized (w : Nat) (bs : List Nat) : Option (List Nat × List Nat) :=
  match readN w bs with
  | some (lb, bs1) => readN (bytesToNatBE lb) bs1
  | none => none

def decodeUIntW (w : Nat) (bs : List Nat) : Option (MVal × List Nat) :=
  match readN w bs with
  | some (d, r) => some (.int (bytesToNatBE d), r)
  | none => none

def decodeSIntW (w : Nat) (bs : List Nat) : Option (MVal × List Nat) :=
  match readN w bs with
  | some (d, r) =>
    let v := bytesToNatBE d
    some (.int (if v < 2 ^ (8 * w - 1) then (v : Int) else (v : Int) - 2 ^ (8 * w)), r)
  | none => none

def decodeStrW (w : Nat) (bs : List Nat) : Option (MVal × List Nat) :=
  match readSized w bs with
  | some (s, r) => some (.str s, r)
  | none => none

def decodeBinW (w : Nat) (bs : List Nat) : Option (MVal × List Nat) :=
  match readSized w bs with
  | some (d, r) => some (.bin d, r)
  | none => none

mutual

/-- Parse one msgpack value from the front of the buffer.  Tag dispatch
follows the msgpack wire format; tags `0xc1` (never used), `0xc7`–`0xcb`
(ext, float) and `0xd4`–`0xd8` (fixext) lie outside the modelled payload
domain and fail. -/
def unpackOneF : Nat → List Nat → Option (MVal × List Nat)
  | 0, _ => none
  | _ + 1, [] => none
  | f + 1, t :: bs =>
    if t < 0x80 then some (.int (t : Int), bs)
    else if t < 0x90 then
      match unpackMapF f (t - 0x80) bs with
      | some (kvs, r) => some (.map kvs, r)
      | none => none
    else if t < 0xa0 then
      match unpackSeqF f (t - 0x90) bs with
      | some (vs, r) => some (.arr vs, r)
      | none => none
    else if t < 0xc0 then
      match readN (t - 0xa0) bs with
      | some (s, r) => some (.str s, r)
      | none => none
    else if t = 0xc0 then some (.nil, bs)
    else if t = 0xc2 then some (.bool false, bs)
    else if t = 0xc3 then some (.bool true, bs)
    else if t = 0xc4 then decodeBinW 1 bs
    else if t = 0xc5 then decodeBinW 2 bs
    else if t = 0xc6 then decodeBinW 4 bs
    else if t = 0xcc then decodeUIntW 1 bs
    else if t = 0xcd then decodeUIntW 2 bs
    else if t = 0xce then decodeUIntW 4 bs
    else if t = 0xcf then decodeUIntW 8 bs
    else if t = 0xd0 then decodeSIntW 1 bs
    else if t = 0xd1 then decodeSIntW 2 bs
    else if t = 0xd2 then decodeSIntW 4 bs
    else if t = 0xd3 then decodeSIntW 8 bs
    else if t = 0xd9 then decodeStrW 1 bs
    else if t = 0xda then decodeStrW 2 bs
    else if t = 0xdb then decodeStrW 4 bs
    else if t = 0xdc then
      match readN 2 bs with
      | some (cb, bs1) =>
        (match unpackSeqF f (bytesToNatBE cb) bs1 with
         | some (vs, r) => some (.arr vs, r)
         | none => none)
      | none => none
    else if t = 0xdd then
      match readN 4 bs with
      | some (cb, bs1) =>
        (match unpackSeqF f (bytesToNatBE cb) bs1 with
         | some (vs, r) => some (.arr vs, r)
         | none => none)
      | none => none
    else if t = 0xde then
      match readN 2 bs with
      | some (cb, bs1) =>
        (match unpackMapF f (bytesToNatBE cb) bs1 with
         | some (kvs, r) => some (.map kvs, r)
         | none => none)
      | none => none
    else if t = 0xdf then
      match readN 4 bs with
      | some (cb, bs1) =>
        (match unpackMapF f (bytesToNatBE cb) bs1 with
         | some (kvs, r) => some (.map kvs, r)
         | none => none)
      | none => none
    else if 0xe0 ≤ t ∧ t < 0x100 then some (.int ((t : Int) - 0x100), bs)
    else none

/-- Parse `n` consecutive msgpack values (array elements). -/
def unpackSeqF : Nat → Nat → List Nat → Option (List MVal × List Nat)
  | _, 0, bs => some ([], bs)
  | 0, _ + 1, _ => none
  | f + 1, n + 1, bs =>
    match unpackOneF f bs with
    | some (v, bs1) =>
      (match unpackSeqF f n bs1 with
       | some (vs, bs2) => some (v :: vs, bs2)
       | none => none)
    | none => none

/-- Parse `n` consecutive key/value pairs (map entries). -/
def unpackMapF : Nat → Nat → List Nat → Option (List (MVal × MVal) × List Nat)
  | _, 0, bs => some ([], bs)
  | 0, _ + 1, _ => none
  | f + 1, n + 1, bs =>
    match unpackOneF f bs with
    | some (k, bs1) =>
      (match unpackOneF f bs1 with
       | some (v, bs2) =>
         (match unpackMapF f n bs2 with
          | some (kvs, bs3) => some ((k, v) :: kvs, bs3)
          | none => none)
       | none => none)
    | none => none

end

/-- `msgpack.unpackb(bs, raw=False, strict_map_key=False)`: one value,
whole buffer; `none` models a raised exception (truncated input, bad
tag, extra data). -/
def unpackb (bs : List Nat) : Option MVal :=
  match unpackOneF (2 * bs.length + 2) bs with
  | some (v, []) => some v
  | _ => none

example : unpackb [0] = some (.int 0) := rfl
example : unpackb [0xfb] = some (.int (-5)) := rfl
example : unpackb [0xc0] = some .nil := rfl
example : unpackb [] = none := rfl
example : unpackb [0xc1] = none := rfl
example : unpackb [0, 0] = none := rfl
example : unpackb [0x81, 0xa1, 97, 1] = some (.map [(.str [97], .int 1)]) := rfl
example : unpackb [0x92, 0x91, 0x90, 0xc2] =
    some (.arr [.arr [.arr []], .bool false]) := rfl

/-! ### LZ4 block decompression

`lz4BlockDecompress maxSize input` embeds
`lz4.block.decompress(input, uncompressed_size=maxSize)`: the LZ4 block
format as decoded by `LZ4_decompress_safe` into a `maxSize`-byte buffer.
The python-lz4 wrapper returns the actual decompressed bytes (resizing
the buffer down) and raises `LZ4BlockError` on any negative return, here
`none`.  A block is a run of sequences: token byte (high nibble literal
run length, low nibble match length − 4, each extended by `0xff`
continuation bytes when saturated), the literals, then — unless the
input ends exactly after the literals, which terminates the block — a
2-byte little-endian offset into the output and the match copy (offset 0
or beyond the produced output is invalid; overlapping copies repeat
produced bytes; output beyond the buffer is an error). -/

/-- Read an LZ4 length extension: `0xff` bytes accumulate, the first
non-`0xff` byte terminates. -/
def lz4ExtLen : List Nat → Nat → Option (Nat × List Nat)
  | [], _ => none
  | b :: rest, acc =>
    if b = 255 then lz4ExtLen rest (acc + 255) else some (acc + b, rest)

/-- Copy `len` match bytes from distance `offset` back, byte by byte on
the growing output (overlap repeats, as in the reference decoder). -/
def lz4CopyMatch (out : List Nat) (offset : Nat) : Nat → List Nat
  | 0 => out
  | len + 1 => lz4CopyMatch (out ++ [out.getD (out.length - offset) 0]) offset len

def lz4Loop (maxSize : Nat) : Nat → List Nat → List Nat → Option (List Nat)
  | 0, _, _ => none
  | _ + 1, [], _ => none
  | fuel + 1, tok :: rest, out =>
    let litLen0 := tok / 16
    match (if litLen0 = 15 then lz4ExtLen rest 15 else some (litLen0, rest)) with
    | none => none
    | some (litLen, rest1) =>
      if litLen ≤ rest1.length then
        let out1 := out ++ rest1.take litLen
        if out1.length > maxSize then none
        else
          match rest1.drop litLen with
          | [] => some out1
          | o1 :: o2 :: rest2 =>
            let offset := o1 + 256 * o2
            if offset = 0 ∨ out1.length < offset then none
            else
              match (if tok % 16 = 15 then lz4ExtLen rest2 15
                     else some (tok % 16, rest2)) with
              | none => none
              | some (mlenBase, rest3) =>
                let mlen := mlenBase + 4
                if out1.length + mlen > maxSize then none
                else lz4Loop maxSize fuel rest3 (lz4CopyMatch out1 offset mlen)
          | [_] => none
      else none

/-- `lz4.block.decompress(input, uncompressed_size=maxSize)`; `none`
models `LZ4BlockError`. -/
def lz4BlockDecompress (maxSize : Nat) (input : List Nat) : Option (List Nat) :=
  lz4Loop maxSize (input.length + 1) input []

example : lz4BlockDecompress 99999 [0x00] = some [] := rfl
example : lz4BlockDecompress 99999 [0x10, 0x00] = some [0x00] := rfl
example : lz4BlockDecompress 99999 [0x30, 0xa2, 104, 105] =
    some [0xa2, 104, 105] := rfl
example : lz4BlockDecompress 99999 [0xa2, 104, 105] = none := rfl
example : lz4BlockDecompress 99999 [0xc0] = none := rfl
example : lz4BlockDecompress 99999 [] = none := rfl
example : lz4BlockDecompress 99999 [0x10, 0x41, 1, 0, 0x10, 0x42] =
    some [0x41, 0x41, 0x41, 0x41, 0x41, 0x42] := rfl

/-! ### The packet codec (`MiniSocketClient._pack_packet` / `._unpack_packet`)

```
def _pack_packet(self, ver, cmd, seq, opcode, payload):
    ver_b = ver.to_bytes(1, "big")
    cmd_b = cmd.to_bytes(2, "big")
    seq_b = seq.to_bytes(1, "big")
    opcode_b = opcode.to_bytes(2, "big")
    payload_bytes = msgpack.packb(payload)
    payload_len = len(payload_bytes) & 0xFFFFFF
    payload_len_b = payload_len.to_bytes(4, "big")
    return ver_b + cmd_b + seq_b + opcode_b + payload_len_b + payload_bytes
```
`none` models any of the `to_bytes` / `packb` calls raising. -/

def packPacket (ver cmd seq opcode : Nat) (payload : MVal) : Option (List Nat) :=
  match toBytesBE? 1 ver with
  | none => none
  | some verB =>
  match toBytesBE? 2 cmd with
  | none => none
  | some cmdB =>
  match toBytesBE? 1 seq with
  | none => none
  | some seqB =>
  match toBytesBE? 2 opcode with
  | none => none
  | some opcodeB =>
  match packb payload with
  | none => none
  | some payloadBytes =>
    let payloadLen := payloadBytes.length &&& 0xFFFFFF
    let payloadLenB := natToBytesBE 4 payloadLen
    some (verB ++ cmdB ++ seqB ++ opcodeB ++ payloadLenB ++ payloadBytes)

/-- The 24-bit-masked length field of a frame, as both `_unpack_packet`
and `_recv_loop` read it: `int.from_bytes(data[6:10], "big") & 0xFFFFFF`. -/
def frameLenField (data : List Nat) : Nat :=
  bytesToNatBE ((data.drop 6).take 4) &&& 0xFFFFFF

/-- The declared payload bytes of a frame: `data[10 : 10 + payload_len]`
(Python slicing truncates silently when `data` is shorter). -/
def framePayloadBytes (data : List Nat) : List Nat :=
  (data.drop 10).take (frameLenField data)

/-!
```
def _unpack_packet(self, data):
    payload_len = int.from_bytes(data[6:10], "big") & 0xFFFFFF
    payload_bytes = data[10 : 10 + payload_len]
    if payload_bytes:
        try:
            payload_bytes = lz4.block.decompress(payload_bytes, uncompressed_size=99999)
        except lz4.block.LZ4BlockError:
            pass
        payload = msgpack.unpackb(payload_bytes, raw=False, strict_map_key=False)
    else:
        payload = None
    return payload
```
The empty-payload branch returns Python `None`, i.e. `MVal.nil`; `none`
here models an exception escaping `_unpack_packet` (only `unpackb` can
raise: the `LZ4BlockError` branch falls back to the raw bytes). -/

def unpackPacket (data : List Nat) : Option MVal :=
  let payloadBytes := framePayloadBytes data
  if payloadBytes ≠ [] then
    let payloadBytes' :=
      match lz4BlockDecompress 99999 payloadBytes with
      | some d => d
      | none => payloadBytes
    unpackb payloadBytes'
  else
    some .nil

example : unpackPacket [10, 0, 0, 1, 0, 6, 0, 0, 0, 1, 0xc0] = some .nil := rfl
example : unpackPacket [10, 0, 0, 1, 0, 6, 0, 0, 0, 0] = some .nil := rfl
example : packPacket 10 0 1 6 .nil =
    some [10, 0, 0, 1, 0, 6, 0, 0, 0, 1, 0xc0] := rfl

/-! ### The connection state machine (`MiniSocketClient`)

`ClientState` carries the object's mutable attributes and an abstract
view of its effects: `sent` collects the byte strings passed to
`socket.sendall`; futures created by `send_msg` are numbered by
`nextFut`, `pending` is the `self._pending` dict (insertion-ordered,
sequence number ↦ future), and `resolved` records every
`fut.set_result(payload)` performed by the receive loop.  A future id
absent from `resolved` is a still-unresolved (never-cancelled) future:
nothing in the source ever cancels or fails a future in `_pending`. -/

structure ClientState where
  seq : Nat
  pending : List (Nat × Nat)
  nextFut : Nat
  resolved : List (Nat × MVal)
  is_connected : Bool
  sent : List (List Nat)
  socketClosed : Bool
  recvTaskCancelled : Bool
  pingTaskCancelled : Bool

/-- Python dict assignment `d[k] = v`: replaces in place, appends new. -/
def dictInsert (k v : Nat) : List (Nat × Nat) → List (Nat × Nat)
  | [] => [(k, v)]
  | (k', v') :: rest =>
    if k' = k then (k, v) :: rest else (k', v') :: dictInsert k v rest

/-- Python `d.get(k)`. -/
def dictGet (k : Nat) : List (Nat × Nat) → Option Nat
  | [] => none
  | (k', v') :: rest => if k' = k then some v' else dictGet k rest

/-- Python `d.pop(k, None)`: the popped value (if any) and the remaining
dict. -/
def dictPop (k : Nat) : List (Nat × Nat) → Option Nat × List (Nat × Nat)
  | [] => (none, [])
  | (k', v') :: rest =>
    if k' = k then (some v', rest)
    else
      let r := dictPop k rest
      (r.1, (k', v') :: r.2)

inductive SendErr where
  /-- `raise RuntimeError("Socket not connected")` — the spec's
  `NotConnectedError`. -/
  | notConnected : SendErr
  /-- an exception escaping `_pack_packet` (`OverflowError` from
  `to_bytes`, or `packb` failing). -/
  | packError : SendErr
deriving DecidableEq, Repr

/-!
```
async def send_msg(self, opcode: int, payload: dict):
    if not self.is_connected:
        raise RuntimeError("Socket not connected")
    self._seq += 1
    seq = self._seq
    packet = self._pack_packet(ver=10, cmd=0, seq=seq, opcode=opcode, payload=payload)
    fut = asyncio.get_running_loop().create_future()
    self._pending[seq] = fut
    await ... self._socket.sendall(packet)
    return await fut
```
The returned `Except` carries the id of the future the caller awaits
(`.ok fut`) or the immediately-raised error.  `sendall` is modelled as
succeeding (its bytes are appended to `sent`). -/

def sendMsg (st : ClientState) (opcode : Nat) (payload : MVal) :
    ClientState × Except SendErr Nat :=
  if !st.is_connected then (st, .error .notConnected)
  else
    let seq := st.seq + 1
    let st1 := { st with seq := seq }
    match packPacket 10 0 seq opcode payload with
    | none => (st1, .error .packError)
    | some packet =>
      let fut := st1.nextFut
      (  { st1 with
           nextFut := fut + 1
           pending := dictInsert seq fut st1.pending
           sent := st1.sent ++ [packet] },
         .ok fut)

/-!
```
def close(self):
    """Gracefully stop background tasks and close the socket."""
    self.is_connected = False
    try: ... self._socket.shutdown(...); self._socket.close() ...
    finally: ... self._recv_task.cancel() ... self._ping_task.cancel() ...
```
`close` never touches `self._pending` or any future stored in it. -/

def close (st : ClientState) : ClientState :=
  { st with
    is_connected := false
    socketClosed := true
    recvTaskCancelled := true
    pingTaskCancelled := true }

/-- `fut = self._pending.pop(seq, None); if fut and not fut.done():
fut.set_result(payload)`.  A future is `done` here exactly when it was
already resolved (nothing in the source cancels a pending future). -/
def resolveFut (st : ClientState) (seq : Nat) (payload : MVal) : ClientState :=
  let r := dictPop seq st.pending
  match r.1 with
  | some fut =>
    if (st.resolved.lookup fut).isSome then { st with pending := r.2 }
    else { st with pending := r.2, resolved := st.resolved ++ [(fut, payload)] }
  | none => { st with pending := r.2 }

/-- Outcome of one blocking `_recv_exactly` call: the bytes obtained
(fewer than requested only on peer shutdown), or a raised socket error. -/
inductive ReadResult where
  | bytes (bs : List Nat) : ReadResult
  | err : ReadResult

inductive LoopCtl where
  /-- the `break` leaving `while self.is_connected`. -/
  | stop : LoopCtl
  /-- proceed to the next iteration. -/
  | cont : LoopCtl
deriving DecidableEq, Repr

/-!
One iteration of the receive loop body (lines 85–102):
```
try:
    header = await ... _recv_exactly(10)
    if not header:
        self.is_connected = False
        break
    payload_len = int.from_bytes(header[6:10], "big") & 0xFFFFFF
    payload_bytes = await ... _recv_exactly(payload_len)
    payload = self._unpack_packet(header + payload_bytes)
    seq = int.from_bytes(header[3:4], "big")
    fut = self._pending.pop(seq, None)
    if fut and not fut.done():
        fut.set_result(payload)
except Exception as e:
    print("Recv loop error:", e)
    await asyncio.sleep(1)
```
`hdrRead` is what the header `_recv_exactly(10)` yields, `bodyRead n`
what the body `_recv_exactly(n)` yields.  Every raised exception lands
in the `except` branch: logged, slept on, and the loop continues with
the state unchanged (no state was mutated before any raise point). -/

def recvIter (st : ClientState) (hdrRead : ReadResult)
    (bodyRead : Nat → ReadResult) : ClientState × LoopCtl :=
  match hdrRead with
  | .err => (st, .cont)
  | .bytes hdr =>
    if hdr = [] then ({ st with is_connected := false }, .stop)
    else
      let payloadLen := bytesToNatBE ((hdr.drop 6).take 4) &&& 0xFFFFFF
      match bodyRead payloadLen with
      | .err => (st, .cont)
      | .bytes body =>
        match unpackPacket (hdr ++ body) with
        | none => (st, .cont)
        | some payload =>
          let seq := bytesToNatBE ((hdr.drop 3).take 1)
          (resolveFut st seq payload, .cont)

/-- The `while self.is_connected` guard around the iteration body. -/
def recvLoopStep (st : ClientState) (hdrRead : ReadResult)
    (bodyRead : Nat → ReadResult) : ClientState × LoopCtl :=
  if st.is_connected then recvIter st hdrRead bodyRead else (st, .stop)

/-! ### msgpack round-trip: `unpackb (packb v) = v`

The parse of an encoded value consumes fuel bounded by `fuelNeed`:
1 for each value, plus (for containers) 1 per element position, the
element fuels combined by `max` (sibling elements are parsed at the same
fuel level). -/

mutual

def fuelNeed : MVal → Nat
  | .arr xs => 1 + fuelNeedList xs
  | .map kvs => 1 + fuelNeedMap kvs
  | _ => 1

def fuelNeedList : List MVal → Nat
  | [] => 0
  | v :: vs => 1 + max (fuelNeed v) (fuelNeedList vs)

def fuelNeedMap : List (MVal × MVal) → Nat
  | [] => 0
  | (k, v) :: kvs => 1 + max (max (fuelNeed k) (fuelNeed v)) (fuelNeedMap kvs)

end

theorem fuelNeed_pos (v : MVal) : 1 ≤ fuelNeed v := by
  cases v <;> simp [fuelNeed]

/-! Decoder branch lemmas: for each encoder family, feeding the encoding
(followed by arbitrary `rest`) to `unpackOneF` parses the value and
leaves `rest`. -/

theorem unpack_posfixint (f m : Nat) (bs : List Nat) (h : m < 0x80) :
    unpackOneF (f + 1) (m :: bs) = some (.int m, bs) := by
  simp only [unpackOneF]
  rw [if_pos h]

theorem unpack_negfixint (f t : Nat) (bs : List Nat) (h1 : 0xe0 ≤ t)
    (h2 : t < 0x100) :
    unpackOneF (f + 1) (t :: bs) = some (.int ((t : Int) - 0x100), bs) := by
  interval_cases t <;> rfl

theorem unpack_nil (f : Nat) (bs : List Nat) :
    unpackOneF (f + 1) (0xc0 :: bs) = some (.nil, bs) := by
  simp [unpackOneF]

theorem unpack_false (f : Nat) (bs : List Nat) :
    unpackOneF (f + 1) (0xc2 :: bs) = some (.bool false, bs) := by
  simp [unpackOneF]

theorem unpack_true (f : Nat) (bs : List Nat) :
    unpackOneF (f + 1) (0xc3 :: bs) = some (.bool true, bs) := by
  simp [unpackOneF]

theorem unpack_uint8 (f m : Nat) (bs : List Nat) :
    unpackOneF (f + 1) (0xcc :: m :: bs) = some (.int m, bs) := by
  simp [unpackOneF, decodeUIntW, readN, bytesToNatBE]

theorem unpack_uint16 (f m : Nat) (bs : List Nat) (h : m < 256 ^ 2) :
    unpackOneF (f + 1) (0xcd :: (natToBytesBE 2 m ++ bs)) = some (.int m, bs) := by
  have h1 : unpackOneF (f + 1) (0xcd :: (natToBytesBE 2 m ++ bs)) =
      decodeUIntW 2 (natToBytesBE 2 m ++ bs) := by simp [unpackOneF]
  rw [h1, decodeUIntW, readN_append_of_len _ _ (natToBytesBE_length 2 m)]
  simp only [bytesToNatBE_natToBytesBE]
  norm_num
  omega

theorem unpack_uint32 (f m : Nat) (bs : List Nat) (h : m < 256 ^ 4) :
    unpackOneF (f + 1) (0xce :: (natToBytesBE 4 m ++ bs)) = some (.int m, bs) := by
  have h1 : unpackOneF (f + 1) (0xce :: (natToBytesBE 4 m ++ bs)) =
      decodeUIntW 4 (natToBytesBE 4 m ++ bs) := by simp [unpackOneF]
  rw [h1, decodeUIntW, readN_append_of_len _ _ (natToBytesBE_length 4 m)]
  simp only [bytesToNatBE_natToBytesBE]
  norm_num
  omega

theorem unpack_uint64 (f m : Nat) (bs : List Nat) (h : m < 256 ^ 8) :
    unpackOneF (f + 1) (0xcf :: (natToBytesBE 8 m ++ bs)) = some (.int m, bs) := by
  have h1 : unpackOneF (f + 1) (0xcf :: (natToBytesBE 8 m ++ bs)) =
      decodeUIntW 8 (natToBytesBE 8 m ++ bs) := by simp [unpackOneF]
  rw [h1, decodeUIntW, readN_append_of_len _ _ (natToBytesBE_length 8 m)]
  simp only [bytesToNatBE_natToBytesBE]
  norm_num
  omega

theorem unpack_int8 (f b : Nat) (bs : List Nat) (h1 : 2 ^ 7 ≤ b)
    (h2 : b < 2 ^ 8) :
    unpackOneF (f + 1) (0xd0 :: b :: bs) = some (.int ((b : Int) - 2 ^ 8), bs) := by
  have he : unpackOneF (f + 1) (0xd0 :: b :: bs) = decodeSIntW 1 (b :: bs) := by
    simp [unpackOneF]
  rw [he, decodeSIntW]
  have hr : readN 1 (b :: bs) = some ([b], bs) := by simp [readN]
  rw [hr]
  simp only [bytesToNatBE, List.foldl]
  norm_num
  omega

theorem unpack_int16 (f u : Nat) (bs : List Nat) (h1 : 2 ^ 15 ≤ u)
    (h2 : u < 2 ^ 16) :
    unpackOneF (f + 1) (0xd1 :: (natToBytesBE 2 u ++ bs)) =
      some (.int ((u : Int) - 2 ^ 16), bs) := by
  have he : unpackOneF (f + 1) (0xd1 :: (natToBytesBE 2 u ++ bs)) =
      decodeSIntW 2 (natToBytesBE 2 u ++ bs) := by simp [unpackOneF]
  rw [he, decodeSIntW, readN_append_of_len _ _ (natToBytesBE_length 2 u)]
  simp only [bytesToNatBE_natToBytesBE]
  have hm : u % 256 ^ 2 = u := Nat.mod_eq_of_lt (by norm_num at h2 ⊢; omega)
  rw [hm, if_neg (by norm_num; omega)]

theorem unpack_int32 (f u : Nat) (bs : List Nat) (h1 : 2 ^ 31 ≤ u)
    (h2 : u < 2 ^ 32) :
    unpackOneF (f + 1) (0xd2 :: (natToBytesBE 4 u ++ bs)) =
      some (.int ((u : Int) - 2 ^ 32), bs) := by
  have he : unpackOneF (f + 1) (0xd2 :: (natToBytesBE 4 u ++ bs)) =
      decodeSIntW 4 (natToBytesBE 4 u ++ bs) := by simp [unpackOneF]
  rw [he, decodeSIntW, readN_append_of_len _ _ (natToBytesBE_length 4 u)]
  simp only [bytesToNatBE_natToBytesBE]
  have hm : u % 256 ^ 4 = u := Nat.mod_eq_of_lt (by norm_num at h2 ⊢; omega)
  rw [hm, if_neg (by norm_num; omega)]

theorem unpack_int64 (f u : Nat) (bs : List Nat) (h1 : 2 ^ 63 ≤ u)
    (h2 : u < 2 ^ 64) :
    unpackOneF (f + 1) (0xd3 :: (natToBytesBE 8 u ++ bs)) =
      some (.int ((u : Int) - 2 ^ 64), bs) := by
  have he : unpackOneF (f + 1) (0xd3 :: (natToBytesBE 8 u ++ bs)) =
      decodeSIntW 8 (natToBytesBE 8 u ++ bs) := by simp [unpackOneF]
  rw [he, decodeSIntW, readN_append_of_len _ _ (natToBytesBE_length 8 u)]
  simp only [bytesToNatBE_natToBytesBE]
  have hm : u % 256 ^ 8 = u := Nat.mod_eq_of_lt (by norm_num at h2 ⊢; omega)
  rw [hm, if_neg (by norm_num; omega)]

theorem unpack_fixstr (f : Nat) (s bs : List Nat) (h : s.length < 0x20) :
    unpackOneF (f + 1) ((0xa0 + s.length) :: (s ++ bs)) = some (.str s, bs) := by
  simp only [unpackOneF]
  rw [if_neg (by omega), if_neg (by omega), if_neg (by omega), if_pos (by omega),
    Nat.add_sub_cancel_left, readN_append]

theorem readSized1_cons (s rest : List Nat) :
    readSized 1 (s.length :: (s ++ rest)) = some (s, rest) := by
  rw [readSized]
  have hr : readN 1 (s.length :: (s ++ rest)) = some ([s.length], s ++ rest) := by
    simp [readN]
  rw [hr]
  show readN (bytesToNatBE [s.length]) (s ++ rest) = some (s, rest)
  have hb : bytesToNatBE [s.length] = s.length := by simp [bytesToNatBE]
  rw [hb, readN_append]

theorem readSized_append (w : Nat) (s rest : List Nat) (h : s.length < 256 ^ w) :
    readSized w (natToBytesBE w s.length ++ (s ++ rest)) = some (s, rest) := by
  rw [readSized, readN_append_of_len _ _ (natToBytesBE_length w _)]
  show readN (bytesToNatBE (natToBytesBE w s.length)) (s ++ rest) = some (s, rest)
  rw [bytesToNatBE_natToBytesBE, Nat.mod_eq_of_lt h, readN_append]

theorem unpack_str8 (f : Nat) (s bs : List Nat) :
    unpackOneF (f + 1) (0xd9 :: s.length :: (s ++ bs)) = some (.str s, bs) := by
  have he : unpackOneF (f + 1) (0xd9 :: s.length :: (s ++ bs)) =
      decodeStrW 1 (s.length :: (s ++ bs)) := by simp [unpackOneF]
  rw [he, decodeStrW, readSized1_cons]

theorem unpack_str16 (f : Nat) (s bs : List Nat) (h : s.length < 256 ^ 2) :
    unpackOneF (f + 1) (0xda :: (natToBytesBE 2 s.length ++ (s ++ bs))) =
      some (.str s, bs) := by
  have he : unpackOneF (f + 1) (0xda :: (natToBytesBE 2 s.length ++ (s ++ bs))) =
      decodeStrW 2 (natToBytesBE 2 s.length ++ (s ++ bs)) := by simp [unpackOneF]
  rw [he, decodeStrW, readSized_append 2 _ _ h]

theorem unpack_str32 (f : Nat) (s bs : List Nat) (h : s.length < 256 ^ 4) :
    unpackOneF (f + 1) (0xdb :: (natToBytesBE 4 s.length ++ (s ++ bs))) =
      some (.str s, bs) := by
  have he : unpackOneF (f + 1) (0xdb :: (natToBytesBE 4 s.length ++ (s ++ bs))) =
      decodeStrW 4 (natToBytesBE 4 s.length ++ (s ++ bs)) := by simp [unpackOneF]
  rw [he, decodeStrW, readSized_append 4 _ _ h]

theorem unpack_bin8 (f : Nat) (d bs : List Nat) :
    unpackOneF (f + 1) (0xc4 :: d.length :: (d ++ bs)) = some (.bin d, bs) := by
  have he : unpackOneF (f + 1) (0xc4 :: d.length :: (d ++ bs)) =
      decodeBinW 1 (d.length :: (d ++ bs)) := by simp [unpackOneF]
  rw [he, decodeBinW, readSized1_cons]

theorem unpack_bin16 (f : Nat) (d bs : List Nat) (h : d.length < 256 ^ 2) :
    unpackOneF (f + 1) (0xc5 :: (natToBytesBE 2 d.length ++ (d ++ bs))) =
      some (.bin d, bs) := by
  have he : unpackOneF (f + 1) (0xc5 :: (natToBytesBE 2 d.length ++ (d ++ bs))) =
      decodeBinW 2 (natToBytesBE 2 d.length ++ (d ++ bs)) := by simp [unpackOneF]
  rw [he, decodeBinW, readSized_append 2 _ _ h]

theorem unpack_bin32 (f : Nat) (d bs : List Nat) (h : d.length < 256 ^ 4) :
    unpackOneF (f + 1) (0xc6 :: (natToBytesBE 4 d.length ++ (d ++ bs))) =
      some (.bin d, bs) := by
  have he : unpackOneF (f + 1) (0xc6 :: (natToBytesBE 4 d.length ++ (d ++ bs))) =
      decodeBinW 4 (natToBytesBE 4 d.length ++ (d ++ bs)) := by simp [unpackOneF]
  rw [he, decodeBinW, readSized_append 4 _ _ h]

theorem unpack_fixarr (f n : Nat) (bs r : List Nat) (vs : List MVal)
    (h : n < 0x10) (hs : unpackSeqF f n bs = some (vs, r)) :
    unpackOneF (f + 1) ((0x90 + n) :: bs) = some (.arr vs, r) := by
  simp only [unpackOneF]
  rw [if_neg (by omega), if_neg (by omega), if_pos (by omega),
    Nat.add_sub_cancel_left, hs]

theorem unpack_arr16 (f n : Nat) (bs r : List Nat) (vs : List MVal)
    (h : n < 256 ^ 2) (hs : unpackSeqF f n bs = some (vs, r)) :
    unpackOneF (f + 1) (0xdc :: (natToBytesBE 2 n ++ bs)) = some (.arr vs, r) := by
  simp only [unpackOneF]
  norm_num
  rw [readN_append_of_len _ _ (natToBytesBE_length 2 n)]
  show (match unpackSeqF f (bytesToNatBE (natToBytesBE 2 n)) bs with
        | some (vs, r) => some (MVal.arr vs, r)
        | none => none) = some (MVal.arr vs, r)
  rw [bytesToNatBE_natToBytesBE, Nat.mod_eq_of_lt h, hs]

theorem unpack_arr32 (f n : Nat) (bs r : List Nat) (vs : List MVal)
    (h : n < 256 ^ 4) (hs : unpackSeqF f n bs = some (vs, r)) :
    unpackOneF (f + 1) (0xdd :: (natToBytesBE 4 n ++ bs)) = some (.arr vs, r) := by
  simp only [unpackOneF]
  norm_num
  rw [readN_append_of_len _ _ (natToBytesBE_length 4 n)]
  show (match unpackSeqF f (bytesToNatBE (natToBytesBE 4 n)) bs with
        | some (vs, r) => some (MVal.arr vs, r)
        | none => none) = some (MVal.arr vs, r)
  rw [bytesToNatBE_natToBytesBE, Nat.mod_eq_of_lt h, hs]

theorem unpack_fixmap (f n : Nat) (bs r : List Nat) (kvs : List (MVal × MVal))
    (h : n < 0x10) (hs : unpackMapF f n bs = some (kvs, r)) :
    unpackOneF (f + 1) ((0x80 + n) :: bs) = some (.map kvs, r) := by
  simp only [unpackOneF]
  rw [if_neg (by omega), if_pos (by omega), Nat.add_sub_cancel_left, hs]

theorem unpack_map16 (f n : Nat) (bs r : List Nat) (kvs : List (MVal × MVal))
    (h : n < 256 ^ 2) (hs : unpackMapF f n bs = some (kvs, r)) :
    unpackOneF (f + 1) (0xde :: (natToBytesBE 2 n ++ bs)) = some (.map kvs, r) := by
  simp only [unpackOneF]
  norm_num
  rw [readN_append_of_len _ _ (natToBytesBE_length 2 n)]
  show (match unpackMapF f (bytesToNatBE (natToBytesBE 2 n)) bs with
        | some (kvs, r) => some (MVal.map kvs, r)
        | none => none) = some (MVal.map kvs, r)
  rw [bytesToNatBE_natToBytesBE, Nat.mod_eq_of_lt h, hs]

theorem unpack_map32 (f n : Nat) (bs r : List Nat) (kvs : List (MVal × MVal))
    (h : n < 256 ^ 4) (hs : unpackMapF f n bs = some (kvs, r)) :
    unpackOneF (f + 1) (0xdf :: (natToBytesBE 4 n ++ bs)) = some (.map kvs, r) := by
  simp only [unpackOneF]
  norm_num
  rw [readN_append_of_len _ _ (natToBytesBE_length 4 n)]
  show (match unpackMapF f (bytesToNatBE (natToBytesBE 4 n)) bs with
        | some (kvs, r) => some (MVal.map kvs, r)
        | none => none) = some (MVal.map kvs, r)
  rw [bytesToNatBE_natToBytesBE, Nat.mod_eq_of_lt h, hs]

/-- Round trip for integer encodings. -/
theorem unpack_packInt (f : Nat) (n : Int) (e rest : List Nat)
    (hp : packInt n = some e) :
    unpackOneF (f + 1) (e ++ rest) = some (.int n, rest) := by
  unfold packInt at hp
  by_cases h0 : 0 ≤ n
  · rw [if_pos h0] at hp
    by_cases h1 : n.toNat < 0x80
    · rw [if_pos h1] at hp
      injection hp with hp; subst hp
      have := unpack_posfixint f n.toNat rest h1
      rwa [Int.toNat_of_nonneg h0] at this
    · rw [if_neg h1] at hp
      by_cases h2 : n.toNat < 0x100
      · rw [if_pos h2] at hp
        injection hp with hp; subst hp
        have := unpack_uint8 f n.toNat rest
        rwa [Int.toNat_of_nonneg h0] at this
      · rw [if_neg h2] at hp
        by_cases h3 : n.toNat < 0x10000
        · rw [if_pos h3] at hp
          injection hp with hp; subst hp
          have := unpack_uint16 f n.toNat rest (by norm_num; omega)
          rwa [Int.toNat_of_nonneg h0] at this
        · rw [if_neg h3] at hp
          by_cases h4 : n.toNat < 0x100000000
          · rw [if_pos h4] at hp
            injection hp with hp; subst hp
            have := unpack_uint32 f n.toNat rest (by norm_num; omega)
            rwa [Int.toNat_of_nonneg h0] at this
          · rw [if_neg h4] at hp
            by_cases h5 : n.toNat < 0x10000000000000000
            · rw [if_pos h5] at hp
              injection hp with hp; subst hp
              have := unpack_uint64 f n.toNat rest (by norm_num; omega)
              rwa [Int.toNat_of_nonneg h0] at this
            · rw [if_neg h5] at hp; exact absurd hp (by simp)
  · rw [if_neg h0] at hp
    by_cases h1 : -0x20 ≤ n
    · rw [if_pos h1] at hp
      injection hp with hp; subst hp
      have := unpack_negfixint f (n + 0x100).toNat rest (by omega) (by omega)
      rw [Int.toNat_of_nonneg (by omega : (0 : Int) ≤ n + 0x100)] at this
      simpa using this
    · rw [if_neg h1] at hp
      by_cases h2 : -0x80 ≤ n
      · rw [if_pos h2] at hp
        injection hp with hp; subst hp
        have := unpack_int8 f (n + 0x100).toNat rest (by omega) (by omega)
        rw [Int.toNat_of_nonneg (by omega : (0 : Int) ≤ n + 0x100)] at this
        simpa using this
      · rw [if_neg h2] at hp
        by_cases h3 : -0x8000 ≤ n
        · rw [if_pos h3] at hp
          injection hp with hp; subst hp
          have := unpack_int16 f (n + 0x10000).toNat rest (by omega) (by omega)
          rw [Int.toNat_of_nonneg (by omega : (0 : Int) ≤ n + 0x10000)] at this
          simpa using this
        · rw [if_neg h3] at hp
          by_cases h4 : -0x80000000 ≤ n
          · rw [if_pos h4] at hp
            injection hp with hp; subst hp
            have := unpack_int32 f (n + 0x100000000).toNat rest (by omega) (by omega)
            rw [Int.toNat_of_nonneg (by omega : (0 : Int) ≤ n + 0x100000000)] at this
            simpa using this
          · rw [if_neg h4] at hp
            by_cases h5 : -0x8000000000000000 ≤ n
            · rw [if_pos h5] at hp
              injection hp with hp; subst hp
              have := unpack_int64 f (n + 0x10000000000000000).toNat rest
                (by omega) (by omega)
              rw [Int.toNat_of_nonneg
                (by omega : (0 : Int) ≤ n + 0x10000000000000000)] at this
              simpa using this
            · rw [if_neg h5] at hp; exact absurd hp (by simp)

theorem unpackSeqF_succ (f n : Nat) (bs : List Nat) :
    unpackSeqF (f + 1) (n + 1) bs =
      match unpackOneF f bs with
      | some (v, bs1) =>
        (match unpackSeqF f n bs1 with
         | some (vs, bs2) => some (v :: vs, bs2)
         | none => none)
      | none => none := rfl

theorem unpackMapF_succ (f n : Nat) (bs : List Nat) :
    unpackMapF (f + 1) (n + 1) bs =
      match unpackOneF f bs with
      | some (k, bs1) =>
        (match unpackOneF f bs1 with
         | some (v, bs2) =>
           (match unpackMapF f n bs2 with
            | some (kvs, bs3) => some ((k, v) :: kvs, bs3)
            | none => none)
         | none => none)
      | none => none := rfl

/-- Joint fuel-indexed round trip: at any fuel level bounding
`fuelNeed`, the decoder inverts the encoder, leaving the rest of the
buffer untouched. -/
theorem unpack_pack_level (f : Nat) :
    (∀ v e rest, fuelNeed v ≤ f → packb v = some e →
      unpackOneF f (e ++ rest) = some (v, rest)) ∧
    (∀ xs body rest, fuelNeedList xs ≤ f → packList xs = some body →
      unpackSeqF f xs.length (body ++ rest) = some (xs, rest)) ∧
    (∀ kvs body rest, fuelNeedMap kvs ≤ f → packMap kvs = some body →
      unpackMapF f kvs.length (body ++ rest) = some (kvs, rest)) := by
  induction f with
  | zero =>
    refine ⟨?_, ?_, ?_⟩
    · intro v e rest hf _
      exact absurd (le_trans (fuelNeed_pos v) hf) (by omega)
    · intro xs body rest hf hp
      cases xs with
      | nil =>
        simp only [packList] at hp
        injection hp with hp; subst hp
        rfl
      | cons v vs => simp [fuelNeedList] at hf
    · intro kvs body rest hf hp
      cases kvs with
      | nil =>
        simp only [packMap] at hp
        injection hp with hp; subst hp
        rfl
      | cons kv kvs' =>
        obtain ⟨k, v⟩ := kv
        simp [fuelNeedMap] at hf
  | succ f ih =>
    obtain ⟨ih1, ih2, ih3⟩ := ih
    refine ⟨?_, ?_, ?_⟩
    · intro v e rest hf hp
      cases v with
      | nil =>
        simp only [packb] at hp; injection hp with hp; subst hp
        exact unpack_nil f rest
      | bool b =>
        cases b
        · simp only [packb] at hp; injection hp with hp; subst hp
          exact unpack_false f rest
        · simp only [packb] at hp; injection hp with hp; subst hp
          exact unpack_true f rest
      | int n =>
        simp only [packb] at hp
        exact unpack_packInt f n e rest hp
      | str s =>
        simp only [packb] at hp
        by_cases c1 : s.length < 0x20
        · rw [if_pos c1] at hp; injection hp with hp; subst hp
          exact unpack_fixstr f s rest c1
        · rw [if_neg c1] at hp
          by_cases c2 : s.length < 0x100
          · rw [if_pos c2] at hp; injection hp with hp; subst hp
            exact unpack_str8 f s rest
          · rw [if_neg c2] at hp
            by_cases c3 : s.length < 0x10000
            · rw [if_pos c3] at hp; injection hp with hp; subst hp
              simpa [List.append_assoc] using
                unpack_str16 f s rest (by norm_num; omega)
            · rw [if_neg c3] at hp
              by_cases c4 : s.length < 0x100000000
              · rw [if_pos c4] at hp; injection hp with hp; subst hp
                simpa [List.append_assoc] using
                  unpack_str32 f s rest (by norm_num; omega)
              · rw [if_neg c4] at hp; exact Option.noConfusion hp
      | bin b =>
        simp only [packb] at hp
        by_cases c1 : b.length < 0x100
        · rw [if_pos c1] at hp; injection hp with hp; subst hp
          exact unpack_bin8 f b rest
        · rw [if_neg c1] at hp
          by_cases c2 : b.length < 0x10000
          · rw [if_pos c2] at hp; injection hp with hp; subst hp
            simpa [List.append_assoc] using
              unpack_bin16 f b rest (by norm_num; omega)
          · rw [if_neg c2] at hp
            by_cases c3 : b.length < 0x100000000
            · rw [if_pos c3] at hp; injection hp with hp; subst hp
              simpa [List.append_assoc] using
                unpack_bin32 f b rest (by norm_num; omega)
            · rw [if_neg c3] at hp; exact Option.noConfusion hp
      | arr xs =>
        simp only [packb] at hp
        split at hp
        · exact Option.noConfusion hp
        · rename_i body hpl
          have hfl : fuelNeedList xs ≤ f := by
            simp only [fuelNeed] at hf; omega
          have hseq := ih2 xs body rest hfl hpl
          split at hp
          · rename_i c1
            injection hp with hp; subst hp
            exact unpack_fixarr f xs.length (body ++ rest) rest xs c1 hseq
          · split at hp
            · rename_i c2
              injection hp with hp; subst hp
              simpa [List.append_assoc] using
                unpack_arr16 f xs.length (body ++ rest) rest xs
                  (by norm_num; omega) hseq
            · split at hp
              · rename_i c3
                injection hp with hp; subst hp
                simpa [List.append_assoc] using
                  unpack_arr32 f xs.length (body ++ rest) rest xs
                    (by norm_num; omega) hseq
              · exact Option.noConfusion hp
      | map kvs =>
        simp only [packb] at hp
        split at hp
        · exact Option.noConfusion hp
        · rename_i body hpl
          have hfl : fuelNeedMap kvs ≤ f := by
            simp only [fuelNeed] at hf; omega
          have hseq := ih3 kvs body rest hfl hpl
          split at hp
          · rename_i c1
            injection hp with hp; subst hp
            exact unpack_fixmap f kvs.length (body ++ rest) rest kvs c1 hseq
          · split at hp
            · rename_i c2
              injection hp with hp; subst hp
              simpa [List.append_assoc] using
                unpack_map16 f kvs.length (body ++ rest) rest kvs
                  (by norm_num; omega) hseq
            · split at hp
              · rename_i c3
                injection hp with hp; subst hp
                simpa [List.append_assoc] using
                  unpack_map32 f kvs.length (body ++ rest) rest kvs
                    (by norm_num; omega) hseq
              · exact Option.noConfusion hp
    · intro xs body rest hf hp
      cases xs with
      | nil =>
        simp only [packList] at hp
        injection hp with hp; subst hp
        rfl
      | cons v vs =>
        simp only [packList] at hp
        cases hpv : packb v with
        | none => rw [hpv] at hp; exact Option.noConfusion hp
        | some ev =>
          rw [hpv] at hp
          cases hpvs : packList vs with
          | none => rw [hpvs] at hp; exact Option.noConfusion hp
          | some bodyvs =>
            rw [hpvs] at hp
            injection hp with hp; subst hp
            have hfv : fuelNeed v ≤ f := by
              simp only [fuelNeedList] at hf; omega
            have hfvs : fuelNeedList vs ≤ f := by
              simp only [fuelNeedList] at hf; omega
            have h1 := ih1 v ev (bodyvs ++ rest) hfv hpv
            have h2 := ih2 vs bodyvs rest hfvs hpvs
            simp only [List.length_cons, List.append_assoc]
            simp only [unpackSeqF_succ, h1, h2]
    · intro kvs body rest hf hp
      cases kvs with
      | nil =>
        simp only [packMap] at hp
        injection hp with hp; subst hp
        rfl
      | cons kv kvs' =>
        obtain ⟨k, v⟩ := kv
        simp only [packMap] at hp
        cases hpk : packb k with
        | none => rw [hpk] at hp; exact Option.noConfusion hp
        | some ek =>
          rw [hpk] at hp
          cases hpv : packb v with
          | none => rw [hpv] at hp; exact Option.noConfusion hp
          | some ev =>
            rw [hpv] at hp
            cases hpm : packMap kvs' with
            | none => rw [hpm] at hp; exact Option.noConfusion hp
            | some bodym =>
              rw [hpm] at hp
              injection hp with hp; subst hp
              have hfk : fuelNeed k ≤ f := by
                simp only [fuelNeedMap] at hf; omega
              have hfv : fuelNeed v ≤ f := by
                simp only [fuelNeedMap] at hf; omega
              have hfm : fuelNeedMap kvs' ≤ f := by
                simp only [fuelNeedMap] at hf; omega
              have h1 := ih1 k ek (ev ++ (bodym ++ rest)) hfk hpk
              have h2 := ih1 v ev (bodym ++ rest) hfv hpv
              have h3 := ih3 kvs' bodym rest hfm hpm
              simp only [List.length_cons, List.append_assoc]
              simp only [unpackMapF_succ, h1, h2, h3]

/-- Every successful serialization is nonempty (each family starts with
a tag byte). -/
theorem packb_length_pos (v : MVal) (e : List Nat) (hp : packb v = some e) :
    1 ≤ e.length := by
  cases v with
  | nil =>
    simp only [packb] at hp
    injection hp with hp; subst hp; simp
  | bool b =>
    cases b <;> simp only [packb] at hp <;>
      (injection hp with hp; subst hp; simp)
  | int n =>
    simp only [packb] at hp
    unfold packInt at hp
    repeat' split at hp
    all_goals first
      | exact Option.noConfusion hp
      | (injection hp with hp; subst hp; simp)
  | str s =>
    simp only [packb] at hp
    repeat' split at hp
    all_goals first
      | exact Option.noConfusion hp
      | (injection hp with hp; subst hp; simp)
  | bin b =>
    simp only [packb] at hp
    repeat' split at hp
    all_goals first
      | exact Option.noConfusion hp
      | (injection hp with hp; subst hp; simp)
  | arr xs =>
    simp only [packb] at hp
    repeat' split at hp
    all_goals first
      | exact Option.noConfusion hp
      | (injection hp with hp; subst hp; simp)
  | map kvs =>
    simp only [packb] at hp
    repeat' split at hp
    all_goals first
      | exact Option.noConfusion hp
      | (injection hp with hp; subst hp; simp)

/-- The fuel needed to parse an encoded value is at most twice the
encoding length (elements cost one fuel step plus their own need; each
contributes at least one byte). -/
theorem fuelNeed_le_aux (s : Nat) :
    (∀ v e, sizeOf v ≤ s → packb v = some e → fuelNeed v ≤ 2 * e.length) ∧
    (∀ xs body, sizeOf xs ≤ s → packList xs = some body →
      fuelNeedList xs ≤ 2 * body.length + 1) ∧
    (∀ kvs body, sizeOf kvs ≤ s → packMap kvs = some body →
      fuelNeedMap kvs ≤ 2 * body.length + 1) := by
  induction s with
  | zero =>
    refine ⟨?_, ?_, ?_⟩
    · intro v e hs _
      exact absurd hs (by cases v <;> simp)
    · intro xs body hs _
      exact absurd hs (by cases xs <;> simp)
    · intro kvs body hs _
      exact absurd hs (by cases kvs <;> simp)
  | succ s ih =>
    obtain ⟨ih1, ih2, ih3⟩ := ih
    refine ⟨?_, ?_, ?_⟩
    · intro v e hs hp
      cases v with
      | nil =>
        have hpos := packb_length_pos _ _ hp
        simp only [fuelNeed]
        omega
      | bool b =>
        have hpos := packb_length_pos _ _ hp
        simp only [fuelNeed]
        omega
      | int n =>
        have hpos := packb_length_pos _ _ hp
        simp only [fuelNeed]
        omega
      | str t =>
        have hpos := packb_length_pos _ _ hp
        simp only [fuelNeed]
        omega
      | bin b =>
        have hpos := packb_length_pos _ _ hp
        simp only [fuelNeed]
        omega
      | arr xs =>
        simp only [packb] at hp
        split at hp
        · exact Option.noConfusion hp
        · rename_i body hpl
          have hxs : sizeOf xs ≤ s := by
            have : sizeOf (MVal.arr xs) = 1 + sizeOf xs := by simp
            omega
          have hb := ih2 xs body hxs hpl
          repeat' split at hp
          all_goals first
            | exact Option.noConfusion hp
            | (injection hp with hp; subst hp
               simp only [fuelNeed, List.length_cons, List.length_append,
                 natToBytesBE_length]
               omega)
      | map kvs =>
        simp only [packb] at hp
        split at hp
        · exact Option.noConfusion hp
        · rename_i body hpm
          have hkvs : sizeOf kvs ≤ s := by
            have : sizeOf (MVal.map kvs) = 1 + sizeOf kvs := by simp
            omega
          have hb := ih3 kvs body hkvs hpm
          repeat' split at hp
          all_goals first
            | exact Option.noConfusion hp
            | (injection hp with hp; subst hp
               simp only [fuelNeed, List.length_cons, List.length_append,
                 natToBytesBE_length]
               omega)
    · intro xs body hs hp
      cases xs with
      | nil =>
        simp only [packList] at hp
        injection hp with hp; subst hp
        simp [fuelNeedList]
      | cons v vs =>
        simp only [packList] at hp
        cases hpv : packb v with
        | none => rw [hpv] at hp; exact Option.noConfusion hp
        | some ev =>
          rw [hpv] at hp
          cases hpvs : packList vs with
          | none => rw [hpvs] at hp; exact Option.noConfusion hp
          | some bodyvs =>
            rw [hpvs] at hp
            injection hp with hp; subst hp
            have hv : sizeOf v ≤ s := by
              have : sizeOf (v :: vs) = 1 + sizeOf v + sizeOf vs := by simp
              have : (0 : Nat) ≤ sizeOf vs := Nat.zero_le _
              omega
            have hvs : sizeOf vs ≤ s := by
              have : sizeOf (v :: vs) = 1 + sizeOf v + sizeOf vs := by simp
              have : (0 : Nat) ≤ sizeOf v := Nat.zero_le _
              omega
            have h1 := ih1 v ev hv hpv
            have h2 := ih2 vs bodyvs hvs hpvs
            have h3 := packb_length_pos v ev hpv
            simp only [fuelNeedList, List.length_append]
            omega
    · intro kvs body hs hp
      cases kvs with
      | nil =>
        simp only [packMap] at hp
        injection hp with hp; subst hp
        simp [fuelNeedMap]
      | cons kv kvs' =>
        obtain ⟨k, v⟩ := kv
        simp only [packMap] at hp
        cases hpk : packb k with
        | none => rw [hpk] at hp; exact Option.noConfusion hp
        | some ek =>
          rw [hpk] at hp
          cases hpv : packb v with
          | none => rw [hpv] at hp; exact Option.noConfusion hp
          | some ev =>
            rw [hpv] at hp
            cases hpm : packMap kvs' with
            | none => rw [hpm] at hp; exact Option.noConfusion hp
            | some bodym =>
              rw [hpm] at hp
              injection hp with hp; subst hp
              have hsz : sizeOf ((k, v) :: kvs') =
                  1 + (1 + sizeOf k + sizeOf v) + sizeOf kvs' := by simp
              have hk : sizeOf k ≤ s := by omega
              have hv : sizeOf v ≤ s := by omega
              have hm : sizeOf kvs' ≤ s := by omega
              have h1 := ih1 k ek hk hpk
              have h2 := ih1 v ev hv hpv
              have h3 := ih3 kvs' bodym hm hpm
              have h4 := packb_length_pos k ek hpk
              have h5 := packb_length_pos v ev hpv
              simp only [fuelNeedMap, List.length_append]
              omega

theorem fuelNeed_le (v : MVal) (e : List Nat) (hp : packb v = some e) :
    fuelNeed v ≤ 2 * e.length :=
  (fuelNeed_le_aux (sizeOf v)).1 v e le_rfl hp

/-- msgpack round trip: decoding a successful serialization recovers
the value. -/
theorem unpackb_packb (v : MVal) (e : List Nat) (hp : packb v = some e) :
    unpackb e = some v := by
  unfold unpackb
  have hf : fuelNeed v ≤ 2 * e.length + 2 := by
    have := fuelNeed_le v e hp
    omega
  have hone := (unpack_pack_level (2 * e.length + 2)).1 v e [] hf hp
  rw [List.append_nil] at hone
  rw [hone]

/-! ### Codec-level facts -/

theorem mask24_eq_mod (x : Nat) : x &&& 0xFFFFFF = x % 2 ^ 24 := by
  have h : (0xFFFFFF : Nat) = 2 ^ 24 - 1 := by norm_num
  rw [h, Nat.and_pow_two_sub_one_eq_mod]

theorem mask24_of_le (x : Nat) (h : x ≤ 0xFFFFFF) : x &&& 0xFFFFFF = x := by
  rw [mask24_eq_mod]
  exact Nat.mod_eq_of_lt (by norm_num at h ⊢; omega)

/-- Shape of a successfully packed frame: 6 header bytes, the 4-byte
masked length field, then the full (unmasked!) payload bytes. -/
theorem packPacket_eq (ver cmd seq opcode : Nat) (P : MVal)
    (frame e : List Nat)
    (hf : packPacket ver cmd seq opcode P = some frame)
    (he : packb P = some e) :
    frame = natToBytesBE 1 ver ++ natToBytesBE 2 cmd ++ natToBytesBE 1 seq ++
      natToBytesBE 2 opcode ++ natToBytesBE 4 (e.length &&& 0xFFFFFF) ++ e ∧
    ver < 256 ∧ cmd < 256 ^ 2 ∧ seq < 256 ∧ opcode < 256 ^ 2 := by
  unfold packPacket at hf
  cases hv : toBytesBE? 1 ver with
  | none => rw [hv] at hf; exact Option.noConfusion hf
  | some verB =>
    rw [hv] at hf
    cases hc : toBytesBE? 2 cmd with
    | none => rw [hc] at hf; exact Option.noConfusion hf
    | some cmdB =>
      rw [hc] at hf
      cases hsq : toBytesBE? 1 seq with
      | none => rw [hsq] at hf; exact Option.noConfusion hf
      | some seqB =>
        rw [hsq] at hf
        cases ho : toBytesBE? 2 opcode with
        | none => rw [ho] at hf; exact Option.noConfusion hf
        | some opcodeB =>
          rw [ho] at hf
          rw [he] at hf
          injection hf with hf
          obtain ⟨hv1, hv2⟩ := toBytesBE?_eq_some hv
          obtain ⟨hc1, hc2⟩ := toBytesBE?_eq_some hc
          obtain ⟨hs1, hs2⟩ := toBytesBE?_eq_some hsq
          obtain ⟨ho1, ho2⟩ := toBytesBE?_eq_some ho
          subst hv1 hc1 hs1 ho1
          refine ⟨hf.symm, by simpa using hv2, hc2, by simpa using hs2, ho2⟩

/-- Decoding a frame produced by `_pack_packet`, when the serialized
payload fits the 24-bit length field and is not accidentally valid LZ4
block data, recovers the payload. -/
theorem unpackPacket_packPacket (ver cmd seq opcode : Nat) (P : MVal)
    (frame e : List Nat)
    (hf : packPacket ver cmd seq opcode P = some frame)
    (he : packb P = some e)
    (hlen : e.length ≤ 0xFFFFFF)
    (hlz : lz4BlockDecompress 99999 e = none) :
    unpackPacket frame = some P := by
  obtain ⟨hfr, -, -, -, -⟩ := packPacket_eq ver cmd seq opcode P frame e hf he
  have hmask : e.length &&& 0xFFFFFF = e.length := mask24_of_le _ hlen
  rw [hmask] at hfr
  have hdrop6 : frame.drop 6 = natToBytesBE 4 e.length ++ e := by
    rw [hfr]
    rw [show natToBytesBE 1 ver ++ natToBytesBE 2 cmd ++ natToBytesBE 1 seq ++
        natToBytesBE 2 opcode ++ natToBytesBE 4 e.length ++ e =
        (natToBytesBE 1 ver ++ natToBytesBE 2 cmd ++ natToBytesBE 1 seq ++
         natToBytesBE 2 opcode) ++ (natToBytesBE 4 e.length ++ e) by
      simp [List.append_assoc]]
    rw [List.drop_left' (by simp [natToBytesBE_length])]
  have hlenf : frameLenField frame = e.length := by
    rw [frameLenField, hdrop6,
      List.take_left' (natToBytesBE_length 4 e.length),
      bytesToNatBE_natToBytesBE]
    have : e.length % 256 ^ 4 = e.length :=
      Nat.mod_eq_of_lt (by norm_num at hlen ⊢; omega)
    rw [this, hmask]
  have hdrop10 : frame.drop 10 = e := by
    rw [hfr]
    rw [show natToBytesBE 1 ver ++ natToBytesBE 2 cmd ++ natToBytesBE 1 seq ++
        natToBytesBE 2 opcode ++ natToBytesBE 4 e.length ++ e =
        (natToBytesBE 1 ver ++ natToBytesBE 2 cmd ++ natToBytesBE 1 seq ++
         natToBytesBE 2 opcode ++ natToBytesBE 4 e.length) ++ e by
      simp [List.append_assoc]]
    rw [List.drop_left' (by simp [natToBytesBE_length])]
  have hpb : framePayloadBytes frame = e := by
    rw [framePayloadBytes, hlenf, hdrop10, List.take_length]
  rw [unpackPacket]
  simp only [hpb]
  have hne : e ≠ [] := by
    have := packb_length_pos P e he
    intro h; subst h; simp at this
  rw [if_pos hne, hlz]
  exact unpackb_packb P e he

/-! ### Claim C3 — codec round trip -/

/-- C3 counterexample: the claim fails as stated.  For the payload `0`
(msgpack `0x00`), the produced frame's payload byte is itself a valid
LZ4 block (empty literal run ending exactly at the input end), so
`_unpack_packet`'s speculative decompression succeeds with `b""` and
`msgpack.unpackb` then raises: `decode(encode(0))` raises instead of
returning `0`. -/
theorem C3_roundtrip_counterexample :
    packPacket 10 0 1 6 (.int 0) = some [10, 0, 0, 1, 0, 6, 0, 0, 0, 1, 0] ∧
    lz4BlockDecompress 99999 [0] = some [] ∧
    unpackPacket [10, 0, 0, 1, 0, 6, 0, 0, 0, 1, 0] = none :=
  ⟨rfl, rfl, rfl⟩

/-- C3 (amended): for every payload `P` and every
(version, command, sequence, opcode) for which `_pack_packet` succeeds,
provided the serialized form of `P` fits the 24-bit length field and is
not itself valid LZ4 block data (the attempt-and-fallback hazard),
`_unpack_packet (_pack_packet ...)` returns `P`. -/
theorem C3_roundtrip (ver cmd seq opcode : Nat) (P : MVal)
    (frame e : List Nat)
    (hf : packPacket ver cmd seq opcode P = some frame)
    (he : packb P = some e)
    (hlen : e.length ≤ 0xFFFFFF)
    (hlz : lz4BlockDecompress 99999 e = none) :
    unpackPacket frame = some P :=
  unpackPacket_packPacket ver cmd seq opcode P frame e hf he hlen hlz

/-- C3 witness: the round trip at the concrete payload `"hi"`. -/
theorem C3_roundtrip_witness :
    unpackPacket [10, 0, 0, 1, 0, 6, 0, 0, 0, 3, 0xa2, 104, 105] =
      some (.str [104, 105]) :=
  C3_roundtrip 10 0 1 6 (.str [104, 105])
    [10, 0, 0, 1, 0, 6, 0, 0, 0, 3, 0xa2, 104, 105] [0xa2, 104, 105]
    rfl rfl (by norm_num) rfl

/-! ### Claim C6 — 24-bit length-field invariant -/

/-- A payload whose msgpack serialization is `2^24 + 5` bytes long. -/
def bigPayload : MVal := .bin (List.replicate (2 ^ 24) 0)

/-- The frame `_pack_packet` emits for `bigPayload`: its length field
says 5, its payload section is `2^24 + 5` bytes. -/
def bigFrame : List Nat :=
  [10, 0, 0, 1, 0, 6, 0, 0, 0, 5, 0xc6, 1, 0, 0, 0] ++ List.replicate (2 ^ 24) 0

/-- C6: the claim fails on the code.  `_pack_packet` has no size check:
for a payload serializing to more than `2^24 - 1` bytes it silently
masks the length field (`& 0xFFFFFF`) while still appending the full
payload, emitting a frame whose masked length field (5) differs from
the byte length of the payload section after the 10-byte header
(`2^24 + 5`) — neither a rejection nor a consistent truncation. -/
theorem C6_oversize_frame :
    packPacket 10 0 1 6 bigPayload = some bigFrame ∧
    frameLenField bigFrame = 5 ∧
    (bigFrame.drop 10).length = 2 ^ 24 + 5 ∧
    frameLenField bigFrame ≠ (bigFrame.drop 10).length := by
  have hrep : (List.replicate (2 ^ 24) (0 : Nat)).length = 2 ^ 24 :=
    List.length_replicate _ _
  have hnb : natToBytesBE 4 (2 ^ 24) = [1, 0, 0, 0] := by decide
  have hpb : packb bigPayload =
      some ([0xc6, 1, 0, 0, 0] ++ List.replicate (2 ^ 24) 0) := by
    rw [bigPayload, packb, hrep]
    rw [if_neg (by norm_num), if_neg (by norm_num), if_pos (by norm_num), hnb]
  have hmask : (([0xc6, 1, 0, 0, 0] ++
      List.replicate (2 ^ 24) (0 : Nat)).length) &&& 0xFFFFFF = 5 := by
    rw [List.length_append, hrep]
    rw [mask24_eq_mod]
    norm_num
  have hpack : packPacket 10 0 1 6 bigPayload = some bigFrame := by
    rw [packPacket, hpb]
    show some _ = some bigFrame
    rw [hmask]
    rw [show natToBytesBE 4 5 = [0, 0, 0, 5] from by decide]
    rw [bigFrame]
    rfl
  have hdrop6 : bigFrame.drop 6 =
      [0, 0, 0, 5, 0xc6, 1, 0, 0, 0] ++ List.replicate (2 ^ 24) 0 := by
    rw [bigFrame]
    rw [List.drop_append_of_le_length (by norm_num)]
    rfl
  have hlenf : frameLenField bigFrame = 5 := by
    rw [frameLenField, hdrop6]
    rw [List.take_append_of_le_length (by norm_num)]
    rfl
  have hdrop10 : bigFrame.drop 10 =
      [0xc6, 1, 0, 0, 0] ++ List.replicate (2 ^ 24) 0 := by
    rw [bigFrame]
    rw [List.drop_append_of_le_length (by norm_num)]
    rfl
  refine ⟨hpack, hlenf, ?_, ?_⟩
  · rw [hdrop10, List.length_append, hrep]
    norm_num
  · rw [hlenf, hdrop10, List.length_append, hrep]
    norm_num

/-! ### Claim C7 — compressed and raw payloads decode alike -/

/-- C7 counterexample: the claim fails as stated.  For the payload `0`,
the frame carrying the LZ4-compressed serialization (`[0x10, 0x00]`,
which decompresses to `[0x00]`) decodes to `0`, while the frame
carrying the raw serialization `[0x00]` raises (its single byte is
itself a valid LZ4 block decompressing to the empty string, which
msgpack rejects) — the two paths do not produce identical output. -/
theorem C7_fallback_counterexample :
    packb (.int 0) = some [0] ∧
    lz4BlockDecompress 99999 [0x10, 0x00] = some [0] ∧
    unpackPacket [10, 0, 0, 1, 0, 6, 0, 0, 0, 2, 0x10, 0x00] = some (.int 0) ∧
    unpackPacket [10, 0, 0, 1, 0, 6, 0, 0, 0, 1, 0x00] = none :=
  ⟨rfl, rfl, rfl, rfl⟩

/-- C7 (amended): for every payload `P` whose raw serialization `e` is
not itself valid LZ4 block data, a frame whose declared payload bytes
are any LZ4 block `c` decompressing to `e` decodes to the same value as
a frame whose declared payload bytes are `e` itself — namely `P`. -/
theorem C7_compressed_eq_raw (P : MVal) (e c dC dU : List Nat)
    (he : packb P = some e)
    (hlzU : lz4BlockDecompress 99999 e = none)
    (hlzC : lz4BlockDecompress 99999 c = some e)
    (hC : framePayloadBytes dC = c)
    (hU : framePayloadBytes dU = e)
    (hcne : c ≠ []) :
    unpackPacket dC = some P ∧ unpackPacket dU = some P := by
  constructor
  · rw [unpackPacket]
    simp only [hC]
    rw [if_pos hcne, hlzC]
    exact unpackb_packb P e he
  · rw [unpackPacket]
    simp only [hU]
    have hne : e ≠ [] := by
      have := packb_length_pos P e he
      intro hh; subst hh; simp at this
    rw [if_pos hne, hlzU]
    exact unpackb_packb P e he

/-- C7 witness: payload `"hi"`, compressed frame vs raw frame. -/
theorem C7_compressed_eq_raw_witness :
    unpackPacket [10, 0, 0, 1, 0, 6, 0, 0, 0, 4, 0x30, 0xa2, 104, 105] =
      some (.str [104, 105]) ∧
    unpackPacket [10, 0, 0, 1, 0, 6, 0, 0, 0, 3, 0xa2, 104, 105] =
      some (.str [104, 105]) :=
  C7_compressed_eq_raw (.str [104, 105]) [0xa2, 104, 105]
    [0x30, 0xa2, 104, 105]
    [10, 0, 0, 1, 0, 6, 0, 0, 0, 4, 0x30, 0xa2, 104, 105]
    [10, 0, 0, 1, 0, 6, 0, 0, 0, 3, 0xa2, 104, 105]
    rfl rfl rfl rfl rfl (by decide)

/-! ### Claim C10 — decode depends only on the masked length field and
the declared payload bytes -/

/-- C10: `_unpack_packet` reads nothing but `data[6:10] & 0xFFFFFF` and
`data[10 : 10 + payload_len]`: any two frames agreeing on those decode
identically; the version/command/sequence/opcode header bytes and any
bytes past the declared payload length are ignored. -/
theorem C10_decode_depends_only_on_len_and_payload (d1 d2 : List Nat)
    (_hlen : frameLenField d1 = frameLenField d2)
    (hpay : (d1.drop 10).take (frameLenField d1) =
      (d2.drop 10).take (frameLenField d2)) :
    unpackPacket d1 = unpackPacket d2 := by
  have h : framePayloadBytes d1 = framePayloadBytes d2 := by
    rw [framePayloadBytes, framePayloadBytes, hpay]
  rw [unpackPacket, unpackPacket]
  simp only [h]

/-- C10 witness: two frames differing in every header byte before the
length field and in trailing bytes past the declared length decode to
the same value. -/
theorem C10_witness :
    unpackPacket [10, 0, 0, 1, 0, 6, 0, 0, 0, 1, 0xc0] =
      unpackPacket [99, 7, 7, 42, 9, 9, 0, 0, 0, 1, 0xc0, 0xff, 0xee] :=
  C10_decode_depends_only_on_len_and_payload _ _ rfl rfl

/-! ### Concrete client states used by witnesses and counterexamples -/

/-- A live connection with one pending slot: sequence 1 ↦ future 0,
future 0 unresolved. -/
def stPending : ClientState :=
  { seq := 3, pending := [(1, 0)], nextFut := 1, resolved := [],
    is_connected := true, sent := [], socketClosed := false,
    recvTaskCancelled := false, pingTaskCancelled := false }

/-- A live connection whose next send collides with the pending slot
for sequence 5 (held by future 0). -/
def stCollide : ClientState :=
  { seq := 4, pending := [(5, 0)], nextFut := 1, resolved := [],
    is_connected := true, sent := [], socketClosed := false,
    recvTaskCancelled := false, pingTaskCancelled := false }

/-- A live connection whose sequence counter has reached 255. -/
def stSeq255 : ClientState :=
  { seq := 255, pending := [], nextFut := 0, resolved := [],
    is_connected := true, sent := [], socketClosed := false,
    recvTaskCancelled := false, pingTaskCancelled := false }

/-- A connection that is not live. -/
def stDead : ClientState :=
  { seq := 0, pending := [], nextFut := 0, resolved := [],
    is_connected := false, sent := [], socketClosed := false,
    recvTaskCancelled := false, pingTaskCancelled := false }

theorem dictGet_dictInsert_self (k v : Nat) (m : List (Nat × Nat)) :
    dictGet k (dictInsert k v m) = some v := by
  induction m with
  | nil => simp [dictInsert, dictGet]
  | cons kv rest ih =>
    obtain ⟨k', v'⟩ := kv
    by_cases h : k' = k
    · subst h
      simp [dictInsert, dictGet]
    · simp [dictInsert, dictGet, h, ih]

/-! ### Claim C1 — behaviour of `close()` -/

/-- C1: the claim fails on the code (`close` never touches
`self._pending`).  After `close()`: the pending table and the set of
resolved futures are exactly what they were — no pending future is
resolved with `ConnectionClosed` or anything else, then or ever (the
receive loop, the only code that resolves futures, refuses to run once
not-live); a subsequent `send_msg` does fail immediately with
`RuntimeError("Socket not connected")`. -/
theorem C1_close_leaves_pending (st : ClientState) (opcode : Nat)
    (payload : MVal) (hdrRead : ReadResult) (bodyRead : Nat → ReadResult) :
    (close st).pending = st.pending ∧
    (close st).resolved = st.resolved ∧
    sendMsg (close st) opcode payload = (close st, .error .notConnected) ∧
    recvLoopStep (close st) hdrRead bodyRead = (close st, .stop) := by
  refine ⟨rfl, rfl, ?_, ?_⟩
  · rw [sendMsg]
    simp [close]
  · rw [recvLoopStep]
    simp [close]

/-! ### Claim C2 — sequence counter wrap -/

/-- C2: the claim fails on the code.  `send_msg` increments `_seq`
without any modulus; on the send that takes the counter to 256,
`seq.to_bytes(1, "big")` inside `_pack_packet` raises `OverflowError`:
the 256th request on a connection errors out instead of wrapping to a
valid 1-byte sequence number (and the counter is left at 256, so every
later send fails the same way). -/
theorem C2_seq_does_not_wrap (st : ClientState) (opcode : Nat)
    (payload : MVal) (hconn : st.is_connected = true)
    (hseq : st.seq = 255) :
    sendMsg st opcode payload = ({ st with seq := 256 }, .error .packError) := by
  rw [sendMsg]
  simp only [hconn, Bool.not_true, Bool.false_eq_true, if_false]
  rw [hseq]
  have hpk : packPacket 10 0 (255 + 1) opcode payload = none := rfl
  rw [hpk]

/-- C2 witness: the overflow at the concrete state with `_seq = 255`. -/
theorem C2_seq_does_not_wrap_witness :
    sendMsg stSeq255 6 .nil = ({ stSeq255 with seq := 256 }, .error .packError) :=
  C2_seq_does_not_wrap stSeq255 6 .nil rfl rfl

/-! ### Claim C4 — EOF stops the loop but cancels nothing -/

/-- C4: the claim fails on the code.  A zero-byte header read does stop
the receive loop (`is_connected := False; break`), but nothing cancels
the pending slots: the table still holds sequence 1 ↦ future 0 and no
future was resolved, so that waiter blocks forever.  A read ERROR does
not even stop the loop — it is swallowed by the `except` branch and the
loop continues. -/
theorem C4_eof_stops_without_cascade :
    recvIter stPending (.bytes []) (fun _ => .bytes []) =
      ({ stPending with is_connected := false }, .stop) ∧
    ({ stPending with is_connected := false }).pending = [(1, 0)] ∧
    ({ stPending with is_connected := false }).resolved = [] ∧
    recvIter stPending .err (fun _ => .bytes []) = (stPending, .cont) :=
  ⟨rfl, rfl, rfl, rfl⟩

/-! ### Claim C5 — duplicate sequence registration -/

/-- C5 counterexample: the claim fails as stated.  From a live state
whose next sequence number (5) already has a pending slot (future 0),
`send_msg` succeeds — no `DuplicateSequenceError` exists anywhere in
the code — and `self._pending[5] = fut` silently replaces the original
slot with the new future 1. -/
theorem C5_duplicate_counterexample :
    dictGet 5 stCollide.pending = some 0 ∧
    sendMsg stCollide 6 .nil =
      ({ stCollide with
         seq := 5
         nextFut := 2
         pending := [(5, 1)]
         sent := [[10, 0, 0, 5, 0, 6, 0, 0, 0, 1, 0xc0]] }, .ok 1) ∧
    dictGet 5 [(5, 1)] = some 1 :=
  ⟨rfl, rfl, rfl⟩

/-- C5 (amended): registering a slot for a sequence number that already
has a live pending slot silently overwrites it: the send succeeds with
no error of any kind, and the table afterwards maps that sequence to
the new future (the original waiter's slot is lost). -/
theorem C5_duplicate_overwrites (st : ClientState) (opcode : Nat)
    (payload : MVal) (pkt : List Nat) (fut0 : Nat)
    (hconn : st.is_connected = true)
    (_hdup : dictGet (st.seq + 1) st.pending = some fut0)
    (hpk : packPacket 10 0 (st.seq + 1) opcode payload = some pkt) :
    sendMsg st opcode payload =
      ({ st with
         seq := st.seq + 1
         nextFut := st.nextFut + 1
         pending := dictInsert (st.seq + 1) st.nextFut st.pending
         sent := st.sent ++ [pkt] }, .ok st.nextFut) ∧
    dictGet (st.seq + 1) (dictInsert (st.seq + 1) st.nextFut st.pending) =
      some st.nextFut := by
  constructor
  · rw [sendMsg]
    simp only [hconn, Bool.not_true, Bool.false_eq_true, if_false]
    rw [hpk]
  · exact dictGet_dictInsert_self _ _ _

/-- C5 witness: the overwrite at the concrete colliding state. -/
theorem C5_duplicate_overwrites_witness :
    sendMsg stCollide 6 .nil =
      ({ stCollide with
         seq := 5
         nextFut := 2
         pending := dictInsert 5 1 stCollide.pending
         sent := [[10, 0, 0, 5, 0, 6, 0, 0, 0, 1, 0xc0]] }, .ok 1) ∧
    dictGet 5 (dictInsert 5 1 stCollide.pending) = some 1 :=
  C5_duplicate_overwrites stCollide 6 .nil
    [10, 0, 0, 5, 0, 6, 0, 0, 0, 1, 0xc0] 0 rfl rfl rfl

/-! ### Claim C8 — `send_msg` orchestration -/

/-- C8 counterexample: the claim's live-path half fails as stated at a
state whose counter is 255: the connection is live, yet `send_msg`
raises (OverflowError from `_pack_packet`) and writes nothing, instead
of registering a slot and writing the frame. -/
theorem C8_live_send_counterexample :
    stSeq255.is_connected = true ∧
    sendMsg stSeq255 17 .nil = ({ stSeq255 with seq := 256 }, .error .packError) ∧
    ({ stSeq255 with seq := 256 }).sent = [] ∧
    ({ stSeq255 with seq := 256 }).pending = [] :=
  ⟨rfl, rfl, rfl, rfl⟩

/-- C8 (amended): `send_msg` on a not-live connection fails immediately
with `RuntimeError("Socket not connected")`, sending nothing and
leaving the state untouched; on a live connection, provided the frame
for the incremented sequence number encodes (in particular the new
sequence number still fits one byte), it increments the counter,
registers a slot for the new sequence number under a fresh future,
writes exactly the encoded frame, and hands the caller that same
future to await. -/
theorem C8_send_msg_spec (st : ClientState) (opcode : Nat) (payload : MVal) :
    (st.is_connected = false → sendMsg st opcode payload =
      (st, .error .notConnected)) ∧
    (∀ pkt, st.is_connected = true →
      packPacket 10 0 (st.seq + 1) opcode payload = some pkt →
      sendMsg st opcode payload =
        ({ st with
           seq := st.seq + 1
           nextFut := st.nextFut + 1
           pending := dictInsert (st.seq + 1) st.nextFut st.pending
           sent := st.sent ++ [pkt] }, .ok st.nextFut) ∧
      dictGet (st.seq + 1)
        (dictInsert (st.seq + 1) st.nextFut st.pending) = some st.nextFut) := by
  constructor
  · intro hdead
    rw [sendMsg]
    simp [hdead]
  · intro pkt hconn hpk
    constructor
    · rw [sendMsg]
      simp only [hconn, Bool.not_true, Bool.false_eq_true, if_false]
      rw [hpk]
    · exact dictGet_dictInsert_self _ _ _

/-- C8 witness: the not-live rejection and a live happy-path send. -/
theorem C8_send_msg_spec_witness :
    sendMsg stDead 6 .nil = (stDead, .error .notConnected) ∧
    sendMsg stPending 6 .nil =
      ({ stPending with
         seq := 4
         nextFut := 2
         pending := dictInsert 4 1 stPending.pending
         sent := [[10, 0, 0, 4, 0, 6, 0, 0, 0, 1, 0xc0]] }, .ok 1) :=
  ⟨(C8_send_msg_spec stDead 6 .nil).1 rfl,
   ((C8_send_msg_spec stPending 6 .nil).2
     [10, 0, 0, 4, 0, 6, 0, 0, 0, 1, 0xc0] rfl rfl).1⟩

/-! ### Claim C9 — exceptions never kill the receive loop -/

/-- C9: in every receive-loop iteration that raises — a socket error on
the header read, a socket error on the body read, or a decode failure
in `_unpack_packet` (the zero-byte header read is not an exception but
the EOF branch) — the `except` branch catches it, and the loop
continues into the next iteration with the state unchanged: the
connection stays up.  (The `print` and `asyncio.sleep(1)` in that
branch are the logging and the short pause; they do not affect the
state.) -/
theorem C9_exception_continues_loop (st : ClientState) (hdrRead : ReadResult)
    (bodyRead : Nat → ReadResult) (hconn : st.is_connected = true)
    (h : hdrRead = .err ∨
      ∃ hdr, hdrRead = .bytes hdr ∧ hdr ≠ [] ∧
        (bodyRead (bytesToNatBE ((hdr.drop 6).take 4) &&& 0xFFFFFF) = .err ∨
         ∃ body,
           bodyRead (bytesToNatBE ((hdr.drop 6).take 4) &&& 0xFFFFFF) =
             .bytes body ∧
           unpackPacket (hdr ++ body) = none)) :
    recvIter st hdrRead bodyRead = (st, .cont) ∧ st.is_connected = true := by
  refine ⟨?_, hconn⟩
  rcases h with h | ⟨hdr, hh, hne, h2⟩
  · subst h; rfl
  · subst hh
    rcases h2 with h2 | ⟨body, hb, hu⟩
    · simp only [recvIter, if_neg hne, h2]
    · simp only [recvIter, if_neg hne, hb, hu]

/-- C9 witness: a malformed frame (payload byte `0xc1`, an invalid
msgpack tag) is received on a live connection; the iteration leaves the
state unchanged and the loop continues. -/
theorem C9_exception_continues_loop_witness :
    recvIter stPending (.bytes [0, 0, 0, 1, 0, 6, 0, 0, 0, 1])
      (fun _ => .bytes [0xc1]) = (stPending, .cont) ∧
    stPending.is_connected = true :=
  C9_exception_continues_loop stPending
    (.bytes [0, 0, 0, 1, 0, 6, 0, 0, 0, 1]) (fun _ => .bytes [0xc1]) rfl
    (Or.inr ⟨[0, 0, 0, 1, 0, 6, 0, 0, 0, 1], rfl, by decide,
      Or.inr ⟨[0xc1], rfl, rfl⟩⟩)

end Komet
